import Mathlib

/-!
Verification development for the CoinEx trading bot
(`src/coinex_bot/trading_bot.py`).

The Python code is shallowly embedded: every external effect (HTTP
transport, the exchange's JSON responses, the regex engine's match
results, wall-clock time) is passed in explicitly as data, Python
`float` values are modelled as exact rationals (`ℚ`), and Python
exceptions are modelled with `Except`.  `time.sleep` calls are pure
delays with no state effect and are not modelled.
-/

set_option maxRecDepth 4096

/-- Python exceptions that the embedded code can raise. -/
inductive PyError : Type where
  /-- `RateLimitError` raised by `handle_rate_limits`. -/
  | rateLimitError (msg : String)
  /-- `ValueError`, e.g. from `int(...)` on a non-integer string. -/
  | valueError (msg : String)
  /-- `ZeroDivisionError` from dividing a float by zero. -/
  | zeroDivisionError
  /-- `KeyError` from a missing dictionary key. -/
  | keyError
deriving DecidableEq

/-- An HTTP response as seen by the bot: status code, headers, and the
decoded JSON body (shape `β` depends on the endpoint). -/
structure HttpResponse (β : Type) : Type where
  status : ℕ
  headers : List (String × String)
  body : β
deriving DecidableEq

/-- Outcome of dispatching one HTTP request with `requests.get/post`:
either a response arrived, or the library raised a
`requests.exceptions.RequestException` (timeout, DNS failure,
connection reset, ...). -/
inductive Transport (β : Type) : Type where
  | success (resp : HttpResponse β)
  | requestException (msg : String)
deriving DecidableEq

/-- The dictionary returned by `send_request`: either the decoded JSON
body of the response, or one of the error dictionaries
`{"code": 4213, "message": ...}` / `{"code": -1, "message": ...}`
built in its `except` clauses. -/
inductive ReqResult (β : Type) : Type where
  | body (b : β)
  | errDict (code : Int) (message : String)
deriving DecidableEq

/-- `json_response.get("code")` on a `send_request` result. -/
def respCode {β : Type} (codeOf : β → Option Int) : ReqResult β → Option Int
  | .body b => codeOf b
  | .errDict c _ => some c

/-- `response.headers.get(k)`. -/
def headerGet (headers : List (String × String)) (k : String) : Option String :=
  (headers.find? (fun p => p.1 == k)).map (fun p => p.2)

/-- Python `str.upper()` / `str.lower()` on ASCII text (the only text
this program upper/lower-cases). -/
def strUpper (s : String) : String := ⟨s.data.map Char.toUpper⟩

/-- See `strUpper`. -/
def strLower (s : String) : String := ⟨s.data.map Char.toLower⟩

/-- Python `int(s)` on a string: optional surrounding whitespace, an
optional sign, then decimal digits; anything else raises `ValueError`
(returned here as `none`). -/
def pythonInt? (s : String) : Option Int :=
  let t := ((s.data.dropWhile Char.isWhitespace).reverse.dropWhile Char.isWhitespace).reverse
  let signDigits : Bool × List Char :=
    match t with
    | '-' :: rest => (true, rest)
    | '+' :: rest => (false, rest)
    | l => (false, l)
  if signDigits.2 ≠ [] ∧ signDigits.2.all Char.isDigit then
    let n : ℕ := signDigits.2.foldl (fun acc c => acc * 10 + (c.toNat - '0'.toNat)) 0
    some (if signDigits.1 then -(n : Int) else (n : Int))
  else none

/-- The message of the `RateLimitError` raised in `handle_rate_limits`. -/
def rateLimitMsg : String := "Rate limit exceeded. Please wait before making more requests."

/-- `CoinexTradingBot.handle_rate_limits` (trading_bot.py lines 81-98).
Raises `RateLimitError` when the status is 429 or when a nonempty
`X-RateLimit-Remaining` header parses to an integer `≤ 0`; raises
`ValueError` when that header is nonempty but not an integer (Python's
`int(remaining)`).  The header logging has no effect and is dropped. -/
def handle_rate_limits {β : Type} (resp : HttpResponse β) : Except PyError Unit :=
  let remaining := headerGet resp.headers "X-RateLimit-Remaining"
  if resp.status = 429 then .error (.rateLimitError rateLimitMsg)
  else
    match remaining with
    | none => .ok ()
    | some s =>
      if s = "" then .ok ()   -- the empty string is falsy in `remaining and ...`
      else
        match pythonInt? s with
        | none => .error (.valueError s)
        | some n => if n ≤ 0 then .error (.rateLimitError rateLimitMsg) else .ok ()

/-- `CoinexTradingBot.send_request` (trading_bot.py lines 100-143),
with the transport outcome passed in.  `create_signature` and header
construction do not affect the returned value and are elided here (the
signature itself is modelled separately by `create_signature` below).
After `handle_rate_limits`, `raise_for_status` raises an `HTTPError`
(a `RequestException`) for statuses `≥ 400`; the soft-throttle check on
codes 3008/4001/4213 only logs and sleeps, so the body is returned
unchanged.  `RateLimitError` and `RequestException` are caught and
turned into error dictionaries; any other exception propagates. -/
def send_request {β : Type} (t : Transport β) : Except PyError (ReqResult β) :=
  match t with
  | .requestException msg => .ok (.errDict (-1) ("Request failed: " ++ msg))
  | .success resp =>
    match handle_rate_limits resp with
    | .error (.rateLimitError m) => .ok (.errDict 4213 m)
    | .error e => .error e
    | .ok () =>
      if 400 ≤ resp.status then
        .ok (.errDict (-1) ("Request failed: HTTP " ++ toString resp.status))
      else
        .ok (.body resp.body)

/-- Body of a `/v2/market/detail` response: `code`, and
`float(data["last"])` when present and parsable (`none` models a
missing key or an unparsable string, both of which raise). -/
structure MarketBody : Type where
  code : Option Int
  last : Option ℚ
deriving DecidableEq

/-- Body of a `/v2/assets/spot/balance` response: `code`, and
`float(data["USDT"]["available"])` when present (`none` models a
missing key, which raises `KeyError`). -/
structure AccountBody : Type where
  code : Option Int
  usdtAvailable : Option ℚ
deriving DecidableEq

/-- Body of a `/v2/spot/order` response: `code`, and
`response.get("data", {}).get("id")`. -/
structure OrderBody : Type where
  code : Option Int
  orderId : Option String
deriving DecidableEq

/-- `CoinexTradingBot.get_current_price` (trading_bot.py lines 154-163):
`get_market_info` is `send_request` on `/v2/market/detail`; on code 0
return `float(data["last"])`, otherwise `None`; every exception is
caught and turned into `None`. -/
def get_current_price (t : Transport MarketBody) : Option ℚ :=
  match send_request t with
  | .error _ => none
  | .ok r =>
    if respCode MarketBody.code r = some 0 then
      match r with
      | .body b => b.last
      | .errDict _ _ => none   -- unreachable: error dictionaries carry code -1 or 4213
    else none

/-- Round-half-to-even to an integer, the rounding Python's built-in
`round` uses. -/
def roundHalfEven (q : ℚ) : ℤ :=
  if q - ⌊q⌋ < 1/2 then ⌊q⌋
  else if 1/2 < q - ⌊q⌋ then ⌊q⌋ + 1
  else if ⌊q⌋ % 2 = 0 then ⌊q⌋ else ⌊q⌋ + 1

/-- Python `round(q, n)` with floats modelled as exact rationals. -/
def pyRound (q : ℚ) (n : ℕ) : ℚ := (roundHalfEven (q * 10 ^ n) : ℚ) / 10 ^ n

/-- `CoinexTradingBot.calculate_position_size` (trading_bot.py lines
212-221), with the `/v2/assets/spot/balance` transport passed in.  The
`symbol` and `leverage` arguments are unused in the source and dropped.
On code 0 the USDT balance is read (a missing key raises `KeyError`),
5% of it is divided by `price` (`price = 0` raises
`ZeroDivisionError`), and the result is rounded with `round(_, 4)`;
on any other code `0.0` is returned. -/
def calculate_position_size (t : Transport AccountBody) (price : ℚ) : Except PyError ℚ :=
  match send_request t with
  | .error e => .error e
  | .ok r =>
    if respCode AccountBody.code r = some 0 then
      match r with
      | .body b =>
        match b.usdtAvailable with
        | none => .error .keyError
        | some bal =>
          if price = 0 then .error .zeroDivisionError
          else .ok (pyRound (bal * (5/100) / price) 4)
      | .errDict _ _ => .error .keyError   -- unreachable: error codes are never 0
    else .ok 0

/-- Capture groups of the first signal pattern
`(?:BYBIT:)?(ENTER-(?:LONG|SHORT))<emoji>-Leverage-(\d+)X<emoji>,([\w\d]+),<emoji>current price = ([\d.]+)`:
group 1 is `ENTER-LONG` or `ENTER-SHORT`, group 2 the leverage digits,
group 3 the symbol, group 4 the price (already parsed as a float here;
an unparsable price raises inside the caller's `try` and yields `None`,
a path outside the claims under verification). -/
structure Match1 : Type where
  orderType : String
  leverage : ℕ
  symbol : String
  price : ℚ
deriving DecidableEq

/-- Capture groups of the second signal pattern
`(?:BINANCE:)?(LONG|SHORT)<emoji>-TP3,([\w\d]+),<emoji>current price = ([\d.]+)`. -/
structure Match2 : Type where
  side : String
  symbol : String
  price : ℚ
deriving DecidableEq

/-- The structured intent extracted from a signal. -/
structure ParsedFields : Type where
  side : String
  symbol : String
  signal_price : ℚ
  leverage : ℕ
deriving DecidableEq

/-- Whether `pat` is an initial segment of `s`. -/
def startsWithChars : List Char → List Char → Bool
  | _, [] => true
  | [], _ :: _ => false
  | a :: as, b :: bs => a == b && startsWithChars as bs

/-- Whether `pat` occurs contiguously in `s`. -/
def hasSubChars (pat : List Char) : List Char → Bool
  | [] => pat.isEmpty
  | a :: rest => startsWithChars (a :: rest) pat || hasSubChars pat rest

/-- Python `pat in s` (substring containment). -/
def containsSub (s pat : String) : Bool := hasSubChars pat.data s.data

/-- The parsing step of `process_trade_signal` (trading_bot.py lines
226-247), with the two `re.search` results passed in: the first
pattern is tried first; only when it does not match is the second
pattern consulted; the second format has no leverage group and uses
the default 10. -/
def parse_signal (m1 : Option Match1) (m2 : Option Match2) : Option ParsedFields :=
  match m1 with
  | some m =>
    -- side = "LONG" if "LONG" in order_type else "SHORT"
    let side := if containsSub m.orderType "LONG" then "LONG" else "SHORT"
    some ⟨side, m.symbol, m.price, m.leverage⟩
  | none =>
    match m2 with
    | some m => some ⟨m.side, m.symbol, m.price, 10⟩
    | none => none

/-- `api_side = "buy" if side == "LONG" else "sell"` (line 250). -/
def api_side_of (side : String) : String := if side = "LONG" then "buy" else "sell"

/-- One entry of `self.active_trades[symbol]` (lines 281-285). -/
structure Trade : Type where
  entry_price : ℚ
  side : String
  order_id : Option String
deriving DecidableEq

/-- `self.active_trades`: a dict from symbol to trade info. -/
abbrev TradeMap := List (String × Trade)

/-- Python dict assignment `d[k] = v`: update in place if the key
exists, else append. -/
def dictInsert (m : TradeMap) (k : String) (v : Trade) : TradeMap :=
  if m.any (fun p => p.1 == k) then
    m.map (fun p => if p.1 = k then (k, v) else p)
  else m ++ [(k, v)]

/-- Python `del d[k]` (guarded by `if k in d` at the call site). -/
def dictDelete (m : TradeMap) (k : String) : TradeMap :=
  m.filter (fun p => p.1 != k)

/-- The params dict sent to `/v2/spot/order` when opening a position
(lines 267-272); `amount` is sent as `str(amount)` and kept as the
exact rational here. -/
structure OrderParams : Type where
  market : String
  orderType : String
  amount : ℚ
  side : String
deriving DecidableEq

/-- The params dict sent to `/v2/spot/order` when closing a position
(lines 190-194). -/
structure CloseParams : Type where
  market : String
  orderType : String
  side : String
deriving DecidableEq

/-- `response.get("data", {}).get("id")` (line 278). -/
def orderIdOf : ReqResult OrderBody → Option String
  | .body b => b.orderId
  | .errDict _ _ => none

/-- What one call of `process_trade_signal` produced: its Python
return value (`none` models `None`), the `active_trades` dict
afterwards, the order request sent (if the code reached order
placement), and the monitoring threads spawned. -/
structure ProcResult : Type where
  result : Option (ReqResult OrderBody)
  trades : TradeMap
  orderRequest : Option OrderParams
  spawned : List (String × ℚ × String × Option String)
deriving DecidableEq

/-- `CoinexTradingBot.process_trade_signal` (trading_bot.py lines
223-301), with the regex results and the three HTTP interactions
passed in: parse; look up the current market price (abort on `None`);
compute the position size (exceptions are caught by the enclosing
`try` and yield `None`); abort if the size is `≤ 0`; place a market
order; on code 0 record the position in `active_trades` and spawn a
`monitor_take_profit` thread with the fetched market price as entry
price, otherwise return the response without registering anything. -/
def process_trade_signal (m1 : Option Match1) (m2 : Option Match2)
    (marketT : Transport MarketBody) (accountT : Transport AccountBody)
    (orderT : Transport OrderBody) (trades : TradeMap) : ProcResult :=
  match parse_signal m1 m2 with
  | none => ⟨none, trades, none, []⟩
  | some p =>
    let api_side := api_side_of p.side
    match get_current_price marketT with
    | none => ⟨none, trades, none, []⟩
    | some current_price =>
      match calculate_position_size accountT current_price with
      | .error _ => ⟨none, trades, none, []⟩   -- caught by the outer `except`
      | .ok amount =>
        if amount ≤ 0 then ⟨none, trades, none, []⟩
        else
          let params : OrderParams := ⟨strUpper p.symbol, "market", amount, api_side⟩
          match send_request orderT with
          | .error _ => ⟨none, trades, some params, []⟩   -- caught by the outer `except`
          | .ok resp =>
            if respCode OrderBody.code resp = some 0 then
              ⟨some resp,
               dictInsert trades p.symbol ⟨current_price, api_side, orderIdOf resp⟩,
               some params,
               [(p.symbol, current_price, api_side, orderIdOf resp)]⟩
            else ⟨some resp, trades, some params, []⟩

/-- Whether the monitoring `while True:` loop continues or `break`s
after an iteration. -/
inductive LoopControl : Type where
  | continueLoop
  | breakLoop
deriving DecidableEq

/-- What one iteration of the monitoring loop produced. -/
structure MonitorStep : Type where
  trades : TradeMap
  control : LoopControl
  closeRequest : Option CloseParams
deriving DecidableEq

/-- One iteration of the `while True:` loop in
`CoinexTradingBot.monitor_take_profit` (trading_bot.py lines 169-210),
with the two HTTP interactions of the iteration passed in.  A failed
price lookup just continues.  The profit fraction is
`(current - entry) / entry` for side `"buy"` and
`(entry - current) / entry` otherwise (an entry price of 0 raises
`ZeroDivisionError`, caught by the iteration's `except`, and the loop
continues).  When the fraction reaches the 15% target an opposite-side
market close order is sent; if that request raises, the exception is
caught and the loop continues with the position still tracked;
otherwise — whether the exchange accepted the close (code 0) or
rejected it — the symbol is deleted from `active_trades` and the loop
`break`s. -/
def monitor_take_profit_step (symbol : String) (entry_price : ℚ) (side : String)
    (marketT : Transport MarketBody) (closeT : Transport OrderBody)
    (trades : TradeMap) : MonitorStep :=
  match get_current_price marketT with
  | none => ⟨trades, .continueLoop, none⟩
  | some current_price =>
    if entry_price = 0 then ⟨trades, .continueLoop, none⟩
    else
      let profit_pct :=
        if side = "buy" then (current_price - entry_price) / entry_price
        else (entry_price - current_price) / entry_price
      if (15 : ℚ)/100 ≤ profit_pct then
        let close_side := if side = "buy" then "sell" else "buy"
        let req : CloseParams := ⟨strUpper symbol, "market", close_side⟩
        match send_request closeT with
        | .error _ => ⟨trades, .continueLoop, some req⟩
        | .ok _ => ⟨dictDelete trades symbol, .breakLoop, some req⟩
      else ⟨trades, .continueLoop, none⟩

/-- A `/v2/market/detail` exchange interaction that succeeds with last
price `p` (used as a concrete test fixture). -/
def marketOkT (p : ℚ) : Transport MarketBody := .success ⟨200, [], ⟨some 0, some p⟩⟩

/-- A balance lookup that succeeds with available USDT balance `bal`. -/
def accountOkT (bal : ℚ) : Transport AccountBody := .success ⟨200, [], ⟨some 0, some bal⟩⟩

/-- An order placement accepted by the exchange with order id `oid`. -/
def orderOkT (oid : String) : Transport OrderBody := .success ⟨200, [], ⟨some 0, some oid⟩⟩

/-- An order placement rejected by the exchange with error code `c`. -/
def orderRejT (c : Int) : Transport OrderBody := .success ⟨200, [], ⟨some c, none⟩⟩

/-- `floor_to_scale(x, n decimal places)`, stated from the
specification's words for claim C4: truncation toward minus infinity
at `n` decimal places (to be compared with the `round`-based sizing in
the source). -/
def floor_to_scale (q : ℚ) (n : ℕ) : ℚ := ((⌊q * 10 ^ n⌋ : ℤ) : ℚ) / 10 ^ n


/-! ### `create_signature` (trading_bot.py lines 39-79)

The signing pipeline is embedded in full: SHA-256 (constants derived,
as in the standard, from the square and cube roots of the first 64
primes; words are `ℕ` reduced mod `2^32`), HMAC, Python's stable
`sorted` on `(key, value)` string pairs (compared code point by code
point, as Python compares `str`), and `json.dumps` with its default
separators and `ensure_ascii` escaping.  The `timestamp` (epoch
milliseconds rendered by `str(int(time.time() * 1000))` in the source)
is passed in as a parameter. -/

def sha256Primes : List ℕ :=
  [2, 3, 5, 7, 11, 13, 17, 19, 23, 29, 31, 37, 41, 43, 47, 53, 59, 61, 67, 71,
   73, 79, 83, 89, 97, 101, 103, 107, 109, 113, 127, 131, 137, 139, 149, 151,
   157, 163, 167, 173, 179, 181, 191, 193, 197, 199, 211, 223, 227, 229, 233,
   239, 241, 251, 257, 263, 269, 271, 277, 281, 283, 293, 307, 311]

def cbrtAux (n : ℕ) : ℕ → ℕ → ℕ → ℕ
  | 0, lo, _ => lo
  | fuel + 1, lo, hi =>
    if hi ≤ lo + 1 then lo
    else
      let m := (lo + hi) / 2
      if m ^ 3 ≤ n then cbrtAux n fuel m hi else cbrtAux n fuel lo m

def natCbrt (n : ℕ) : ℕ := cbrtAux n 200 0 (n + 2)

def M32 : ℕ := 2 ^ 32

def add32 (a b : ℕ) : ℕ := (a + b) % M32

def rotr32 (n x : ℕ) : ℕ := ((x >>> n) ||| (x <<< (32 - n))) % M32

def shaCh (x y z : ℕ) : ℕ := (x &&& y) ^^^ ((x ^^^ (M32 - 1)) &&& z)

def shaMaj (x y z : ℕ) : ℕ := (x &&& y) ^^^ (x &&& z) ^^^ (y &&& z)

def bigSigma0 (x : ℕ) : ℕ := rotr32 2 x ^^^ rotr32 13 x ^^^ rotr32 22 x

def bigSigma1 (x : ℕ) : ℕ := rotr32 6 x ^^^ rotr32 11 x ^^^ rotr32 25 x

def smallSigma0 (x : ℕ) : ℕ := rotr32 7 x ^^^ rotr32 18 x ^^^ (x >>> 3)

def smallSigma1 (x : ℕ) : ℕ := rotr32 17 x ^^^ rotr32 19 x ^^^ (x >>> 10)

def shaK : List ℕ := sha256Primes.map (fun p => natCbrt (p * 2 ^ 96) % M32)

def shaH0 : List ℕ := (sha256Primes.take 8).map (fun p => Nat.sqrt (p * 2 ^ 64) % M32)

def bytesToWords : List ℕ → List ℕ
  | a :: b :: c :: d :: rest => (((a * 256 + b) * 256 + c) * 256 + d) :: bytesToWords rest
  | _ => []

def extendSchedule (w : List ℕ) : List ℕ :=
  (List.range 48).foldl
    (fun acc _ =>
      let n := acc.length
      acc ++ [add32 (add32 (smallSigma1 (acc.getD (n - 2) 0)) (acc.getD (n - 7) 0))
        (add32 (smallSigma0 (acc.getD (n - 15) 0)) (acc.getD (n - 16) 0))])
    w

def compressStep : (ℕ × ℕ × ℕ × ℕ × ℕ × ℕ × ℕ × ℕ) → ℕ × ℕ → (ℕ × ℕ × ℕ × ℕ × ℕ × ℕ × ℕ × ℕ)
  | (a, b, c, d, e, f, g, h), (k, w) =>
    let t1 := add32 h (add32 (bigSigma1 e) (add32 (shaCh e f g) (add32 k w)))
    let t2 := add32 (bigSigma0 a) (shaMaj a b c)
    (add32 t1 t2, a, b, c, add32 d t1, e, f, g)

def processBlock (h : List ℕ) (block : List ℕ) : List ℕ :=
  let w := extendSchedule (bytesToWords block)
  match (shaK.zip w).foldl compressStep
    (h.getD 0 0, h.getD 1 0, h.getD 2 0, h.getD 3 0,
     h.getD 4 0, h.getD 5 0, h.getD 6 0, h.getD 7 0) with
  | (a, b, c, d, e, f, g, hh) =>
    [add32 (h.getD 0 0) a, add32 (h.getD 1 0) b, add32 (h.getD 2 0) c, add32 (h.getD 3 0) d,
     add32 (h.getD 4 0) e, add32 (h.getD 5 0) f, add32 (h.getD 6 0) g, add32 (h.getD 7 0) hh]

def be64 (n : ℕ) : List ℕ := (List.range 8).map (fun i => (n >>> (8 * (7 - i))) % 256)

def shaPad (msg : List ℕ) : List ℕ :=
  msg ++ [128] ++ List.replicate ((119 - msg.length % 64) % 64) 0 ++ be64 (8 * msg.length)

def chunk64 : ℕ → List ℕ → List (List ℕ)
  | 0, _ => []
  | n + 1, bs => bs.take 64 :: chunk64 n (bs.drop 64)

def wordBytes (w : ℕ) : List ℕ := [(w >>> 24) % 256, (w >>> 16) % 256, (w >>> 8) % 256, w % 256]

def sha256 (msg : List ℕ) : List ℕ :=
  let padded := shaPad msg
  ((chunk64 (padded.length / 64) padded).foldl processBlock shaH0).foldr
    (fun w acc => wordBytes w ++ acc) []

def hmacSha256 (key msg : List ℕ) : List ℕ :=
  let k0 := if 64 < key.length then sha256 key else key
  let k := k0 ++ List.replicate (64 - k0.length) 0
  sha256 ((k.map (fun b => b ^^^ 92)) ++ sha256 ((k.map (fun b => b ^^^ 54)) ++ msg))

def latin1Bytes (s : String) : List ℕ := s.data.map Char.toNat

def hexDigitChar (n : ℕ) : Char := "0123456789abcdef".data.getD n '0'

def hexDigest (bs : List ℕ) : String :=
  ⟨bs.foldr (fun b acc => hexDigitChar (b / 16 % 16) :: hexDigitChar (b % 16) :: acc) []⟩

def charListLt : List Char → List Char → Bool
  | [], [] => false
  | [], _ :: _ => true
  | _ :: _, [] => false
  | a :: as, b :: bs => if a < b then true else if b < a then false else charListLt as bs

def strLeB (s t : String) : Bool := ! charListLt t.data s.data

def pairLeB (x y : String × String) : Bool :=
  charListLt x.1.data y.1.data || (x.1 == y.1 && strLeB x.2 y.2)

def insertSorted (x : String × String) : List (String × String) → List (String × String)
  | [] => [x]
  | y :: ys => if pairLeB x y then x :: y :: ys else y :: insertSorted x ys

def sortPairs : List (String × String) → List (String × String)
  | [] => []
  | x :: xs => insertSorted x (sortPairs xs)

def hex4 (n : ℕ) : String :=
  ⟨[hexDigitChar (n / 4096 % 16), hexDigitChar (n / 256 % 16),
    hexDigitChar (n / 16 % 16), hexDigitChar (n % 16)]⟩

def jsonEscapeChar (c : Char) : String :=
  if c = '"' then "\\\""
  else if c = '\\' then "\\\\"
  else if c = '\n' then "\\n"
  else if c = '\t' then "\\t"
  else if c = '\r' then "\\r"
  else if c.toNat = 8 then "\\b"
  else if c.toNat = 12 then "\\f"
  else if c.toNat < 32 then "\\u" ++ hex4 c.toNat
  else if c.toNat < 127 then String.singleton c
  else if c.toNat < 65536 then "\\u" ++ hex4 c.toNat
  else
    "\\u" ++ hex4 (55296 + (c.toNat - 65536) / 1024)
      ++ "\\u" ++ hex4 (56320 + (c.toNat - 65536) % 1024)

def jsonStr (s : String) : String := "\"" ++ String.join (s.data.map jsonEscapeChar) ++ "\""

def jsonDumps (params : List (String × String)) : String :=
  "\x7b" ++ ", ".intercalate (params.map (fun kv => jsonStr kv.1 ++ ": " ++ jsonStr kv.2))
    ++ "\x7d"

def queryStringOf (params : List (String × String)) : String :=
  "&".intercalate ((sortPairs params).map (fun kv => kv.1 ++ "=" ++ kv.2))

def create_signature (api_secret method endpoint : String)
    (params : List (String × String)) (timestamp : String) : String × String :=
  let request_path :=
    if strUpper method = "GET" ∧ params ≠ [] then
      endpoint ++ "?" ++ "&".intercalate ((sortPairs params).map (fun kv => kv.1 ++ "=" ++ kv.2))
    else endpoint
  let to_sign := strUpper method ++ request_path
  let to_sign2 :=
    if strUpper method = "POST" ∧ params ≠ [] then to_sign ++ jsonDumps params else to_sign
  let to_sign3 := to_sign2 ++ timestamp
  (strLower (hexDigest (hmacSha256 (latin1Bytes api_secret) (latin1Bytes to_sign3))), timestamp)

theorem roundHalfEven_of_floor_lt_half (q : ℚ) (f : ℤ) (h1 : ⌊q⌋ = f) (h2 : q - f < 1/2) :
    roundHalfEven q = f := by
  rw [roundHalfEven, h1, if_pos h2]

theorem roundHalfEven_of_half_lt (q : ℚ) (f : ℤ) (h1 : ⌊q⌋ = f) (h2 : 1/2 < q - f) :
    roundHalfEven q = f + 1 := by
  rw [roundHalfEven, h1, if_neg (by linarith), if_pos h2]

theorem roundHalfEven_intCast (z : ℤ) : roundHalfEven ((z : ℚ)) = z := by
  rw [roundHalfEven, Int.floor_intCast, if_pos (by norm_num)]

/-- `roundHalfEven` rounds to a nearest integer: the error is at most
one half. -/
theorem abs_roundHalfEven_sub_le (q : ℚ) : |(roundHalfEven q : ℚ) - q| ≤ 1/2 := by
  have h1 : (⌊q⌋ : ℚ) ≤ q := Int.floor_le q
  have h2 : q < ⌊q⌋ + 1 := Int.lt_floor_add_one q
  rw [roundHalfEven]
  split
  · rw [abs_le]; constructor <;> linarith
  · rename_i h
    split
    · rw [Int.cast_add, Int.cast_one, abs_le]; constructor <;> linarith
    · rename_i h'
      have heq : q - ⌊q⌋ = 1/2 := le_antisymm (le_of_not_lt h') (le_of_not_lt h)
      split
      · rw [abs_le]; constructor <;> linarith
      · rw [Int.cast_add, Int.cast_one, abs_le]; constructor <;> linarith

/-- Claim C3, counterexample.  The claim states that
`size(balance=100, price=0) == 0` "without any division error"; in the
code a successful balance lookup with price 0 raises
`ZeroDivisionError` instead of returning 0 (the caller's `try` then
swallows it and aborts the trade). -/
theorem C3_zero_price_cex :
    calculate_position_size (accountOkT 100) 0 = .error .zeroDivisionError
    ∧ calculate_position_size (accountOkT 100) 0 ≠ .ok 0 := by
  have h : calculate_position_size (accountOkT 100) 0 = .error .zeroDivisionError := by
    simp [calculate_position_size, accountOkT, send_request, handle_rate_limits, headerGet,
      respCode]
  exact ⟨h, by rw [h]; simp⟩

/-- Claim C3, amended: when the balance lookup fails (any response whose
`code` is not 0, including the transport-failure and rate-limit error
dictionaries), position sizing returns quantity 0; but when the lookup
succeeds and the price is 0, the code raises `ZeroDivisionError` rather
than returning 0. -/
theorem C3_sizing_amended :
    (∀ (t : Transport AccountBody) (price : ℚ) (r : ReqResult AccountBody),
        send_request t = .ok r → respCode AccountBody.code r ≠ some 0 →
        calculate_position_size t price = .ok 0)
    ∧ calculate_position_size (accountOkT 100) 0 = .error .zeroDivisionError := by
  constructor
  · intro t price r h hc
    simp [calculate_position_size, h, hc]
  · simp [calculate_position_size, accountOkT, send_request, handle_rate_limits, headerGet,
      respCode]

/-- Witness for `C3_sizing_amended`: a balance lookup that fails in
transport yields quantity 0. -/
theorem C3_sizing_amended_witness :
    calculate_position_size (.requestException "connection reset") 100 = .ok 0 :=
  C3_sizing_amended.1 (.requestException "connection reset") 100
    (.errDict (-1) "Request failed: connection reset") rfl (by decide)

/-- Claim C4, counterexample.  The claim states the quantity is
`(balance * 0.05) / price` floored to 4 decimal places; with
balance 1 and price 3 the exact value is 1/60 = 0.016666..., the code's
`round(_, 4)` gives 0.0167 while `floor_to_scale` gives 0.0166. -/
theorem C4_floor_vs_round_cex :
    calculate_position_size (accountOkT 1) 3 = .ok (167/10000)
    ∧ floor_to_scale (1 * (5/100) / 3) 4 = 166/10000
    ∧ (167/10000 : ℚ) ≠ 166/10000 := by
  have hf : ⌊(500/3 : ℚ)⌋ = 166 := by rw [Int.floor_eq_iff]; norm_num
  refine ⟨?_, ?_, by norm_num⟩
  · simp [calculate_position_size, accountOkT, send_request, handle_rate_limits, headerGet,
      respCode]
    have h : ((5 / 100 / 3 : ℚ)) * 10 ^ 4 = 500/3 := by norm_num
    rw [pyRound, h, roundHalfEven_of_half_lt (500/3) 166 hf (by norm_num)]
    norm_num
  · have h : ((1 * (5/100) / 3 : ℚ) * 10 ^ 4) = 500/3 := by norm_num
    rw [floor_to_scale, h, hf]; norm_num

/-- Claim C4, amended: for a successful balance lookup and any nonzero
price, the quantity is `(balance * 0.05) / price` rounded to 4 decimal
places with round-half-to-even (Python `round`), i.e. to a nearest
4-decimal value (error at most half an ulp, 1/20000) — not floored;
the particular case `size(balance=1000, price=10) = 5.0000` holds. -/
theorem C4_sizing_rounding_amended :
    (∀ (bal price : ℚ), price ≠ 0 →
        calculate_position_size (accountOkT bal) price = .ok (pyRound (bal * (5/100) / price) 4))
    ∧ (∀ q : ℚ, |pyRound q 4 - q| ≤ 1/20000)
    ∧ calculate_position_size (accountOkT 1000) 10 = .ok 5 := by
  refine ⟨?_, ?_, ?_⟩
  · intro bal price hp
    simp [calculate_position_size, accountOkT, send_request, handle_rate_limits, headerGet,
      respCode, hp]
  · intro q
    have h := abs_roundHalfEven_sub_le (q * 10 ^ 4)
    rw [pyRound]
    rw [show (roundHalfEven (q * 10 ^ 4) : ℚ) / 10 ^ 4 - q
          = ((roundHalfEven (q * 10 ^ 4) : ℚ) - q * 10 ^ 4) / 10 ^ 4 by ring]
    rw [abs_div]
    rw [show |(10 : ℚ) ^ 4| = 10000 by norm_num]
    rw [div_le_iff₀ (by norm_num)]
    calc |(roundHalfEven (q * 10 ^ 4) : ℚ) - q * 10 ^ 4| ≤ 1/2 := h
    _ = 1/20000 * 10000 := by norm_num
  · have hpy : pyRound ((1000 : ℚ) * (5 / 100) / 10) 4 = 5 := by
      have h : ((1000 : ℚ) * (5 / 100) / 10) * 10 ^ 4 = ((50000 : ℤ) : ℚ) := by norm_num
      rw [pyRound, h, roundHalfEven_intCast]; norm_num
    simp [calculate_position_size, accountOkT, send_request, handle_rate_limits, headerGet,
      respCode, hpy]

/-- Witness for `C4_sizing_rounding_amended` at balance 1000, price 10. -/
theorem C4_sizing_rounding_amended_witness :
    calculate_position_size (accountOkT 1000) 10 = .ok (pyRound (1000 * (5/100) / 10) 4) :=
  C4_sizing_rounding_amended.1 1000 10 (by norm_num)

/-- Claim C5, confirmed.  In the monitoring loop the profit fraction is
direction-aware — `(current - entry) / entry` for a buy position and
`(entry - current) / entry` for a sell position — and an opposite-side
market close request is issued and the loop breaks exactly when that
fraction is `≥ 0.15`; concretely, a buy entered at 100 triggers at
price 115 and does not trigger at 114.999. -/
theorem C5_take_profit_trigger :
    (∀ (symbol : String) (entry current : ℚ) (side : String)
        (marketT : Transport MarketBody) (closeT : Transport OrderBody)
        (trades : TradeMap) (resp : ReqResult OrderBody),
        get_current_price marketT = some current →
        entry ≠ 0 →
        send_request closeT = .ok resp →
        (((monitor_take_profit_step symbol entry side marketT closeT trades).control = .breakLoop
            ∧ (monitor_take_profit_step symbol entry side marketT closeT trades).closeRequest
              = some ⟨strUpper symbol, "market", if side = "buy" then "sell" else "buy"⟩)
          ↔ (15 : ℚ)/100
              ≤ (if side = "buy" then (current - entry) / entry else (entry - current) / entry)))
    ∧ (monitor_take_profit_step "BTCUSDT" 100 "buy" (marketOkT 115) (orderOkT "c1")
        [("BTCUSDT", ⟨100, "buy", some "o1"⟩)]).control = .breakLoop
    ∧ (monitor_take_profit_step "BTCUSDT" 100 "buy" (marketOkT (114999/1000)) (orderOkT "c1")
        [("BTCUSDT", ⟨100, "buy", some "o1"⟩)]).control = .continueLoop := by
  refine ⟨?_, ?_, ?_⟩
  · intro symbol entry current side marketT closeT trades resp hprice hentry hsend
    by_cases hp : (15 : ℚ)/100
        ≤ (if side = "buy" then (current - entry) / entry else (entry - current) / entry)
    · simp [monitor_take_profit_step, hprice, hentry, hsend, hp]
    · simp [monitor_take_profit_step, hprice, hentry, hsend, hp]
  · norm_num [monitor_take_profit_step, get_current_price, marketOkT, orderOkT, send_request,
      handle_rate_limits, headerGet, respCode, dictDelete]
  · norm_num [monitor_take_profit_step, get_current_price, marketOkT, orderOkT, send_request,
      handle_rate_limits, headerGet, respCode, dictDelete]

/-- Witness for `C5_take_profit_trigger` on a short position entered at
200 and polled at 160. -/
theorem C5_take_profit_trigger_witness :
    ((monitor_take_profit_step "ETHUSDT" 200 "sell" (marketOkT 160) (orderOkT "x") []).control
        = .breakLoop
      ∧ (monitor_take_profit_step "ETHUSDT" 200 "sell" (marketOkT 160) (orderOkT "x")
          []).closeRequest
        = some ⟨strUpper "ETHUSDT", "market", if "sell" = "buy" then "sell" else "buy"⟩)
    ↔ (15 : ℚ)/100 ≤ (if "sell" = "buy" then ((160 : ℚ) - 200) / 200 else (200 - 160) / 200) :=
  C5_take_profit_trigger.1 "ETHUSDT" 200 160 "sell" (marketOkT 160) (orderOkT "x") []
    (.body ⟨some 0, some "x"⟩) rfl (by norm_num) rfl

/-- Claim C1, counterexample.  The claim states that when the exchange
rejects the take-profit close (code ≠ 0) the position stays in the
active set and the loop continues; in the code the `del`/`break` at
lines 202-205 run regardless of the close response's code, so the
tracked position is removed and the loop terminates. -/
theorem C1_close_rejected_cex :
    monitor_take_profit_step "BTCUSDT" 100 "buy" (marketOkT 115) (orderRejT 1234)
        [("BTCUSDT", ⟨100, "buy", some "o1"⟩)]
      = ⟨[], .breakLoop, some ⟨strUpper "BTCUSDT", "market", "sell"⟩⟩
    ∧ (([("BTCUSDT", (⟨100, "buy", some "o1"⟩ : Trade))].lookup "BTCUSDT")).isSome := by
  constructor
  · norm_num [monitor_take_profit_step, get_current_price, marketOkT, orderRejT, send_request,
      handle_rate_limits, headerGet, respCode, dictDelete]
  · decide

/-- Claim C1, amended: when the take-profit close request returns
(whether accepted or rejected — here any response with code ≠ 0), the
failure is only logged; the symbol is nevertheless deleted from
`active_trades` and the monitoring loop `break`s, exactly as in the
success case.  (Only a close request that *raises* leaves the position
tracked and the loop running.) -/
theorem C1_close_rejected_amended :
    ∀ (symbol : String) (entry current : ℚ) (side : String)
      (marketT : Transport MarketBody) (closeT : Transport OrderBody)
      (trades : TradeMap) (resp : ReqResult OrderBody),
      get_current_price marketT = some current →
      entry ≠ 0 →
      (15 : ℚ)/100 ≤ (if side = "buy" then (current - entry) / entry
                      else (entry - current) / entry) →
      send_request closeT = .ok resp →
      respCode OrderBody.code resp ≠ some 0 →
      monitor_take_profit_step symbol entry side marketT closeT trades
        = ⟨dictDelete trades symbol, .breakLoop,
           some ⟨strUpper symbol, "market", if side = "buy" then "sell" else "buy"⟩⟩ := by
  intro symbol entry current side marketT closeT trades resp hprice hentry hprofit hsend hrej
  simp [monitor_take_profit_step, hprice, hentry, hsend, hprofit]

/-- Witness for `C1_close_rejected_amended`: a rejected close (code
1234) still removes the position and breaks the loop. -/
theorem C1_close_rejected_amended_witness :
    monitor_take_profit_step "BTCUSDT" 100 "buy" (marketOkT 115) (orderRejT 1234)
        [("BTCUSDT", ⟨100, "buy", some "o1"⟩)]
      = ⟨dictDelete [("BTCUSDT", ⟨100, "buy", some "o1"⟩)] "BTCUSDT", .breakLoop,
         some ⟨strUpper "BTCUSDT", "market", if "buy" = "buy" then "sell" else "buy"⟩⟩ :=
  C1_close_rejected_amended "BTCUSDT" 100 115 "buy" (marketOkT 115) (orderRejT 1234)
    [("BTCUSDT", ⟨100, "buy", some "o1"⟩)] (.body ⟨some 1234, none⟩)
    rfl (by norm_num) (by norm_num) rfl (by decide)

theorem lookup_map_replace (k : String) (v : Trade) :
    ∀ (m : TradeMap), m.any (fun p => p.1 == k) = true →
      ((m.map (fun p => if p.1 = k then (k, v) else p)).lookup k) = some v
  | [], h => by simp at h
  | (a, b) :: tl, h => by
    by_cases hak : a = k
    · simp [List.lookup_cons, hak]
    · have htl : tl.any (fun p => p.1 == k) = true := by simpa [hak] using h
      simpa [List.lookup_cons, hak, beq_false_of_ne (Ne.symm hak)]
        using lookup_map_replace k v tl htl

theorem lookup_append_right (k : String) :
    ∀ (m : TradeMap), m.any (fun p => p.1 == k) = false → ∀ (tl : TradeMap),
      ((m ++ tl).lookup k) = tl.lookup k
  | [], _, tl => by simp
  | (a, b) :: rest, h, tl => by
    simp only [List.any_cons, Bool.or_eq_false_iff] at h
    have ha : ¬ (a = k) := by simpa using h.1
    simp [List.lookup_cons, beq_false_of_ne (Ne.symm ha), lookup_append_right k rest h.2 tl]

theorem lookup_dictInsert_self (m : TradeMap) (k : String) (v : Trade) :
    (dictInsert m k v).lookup k = some v := by
  rw [dictInsert]
  by_cases h : m.any (fun p => p.1 == k) = true
  · rw [if_pos h]; exact lookup_map_replace k v m h
  · rw [if_neg h]
    have h' : m.any (fun p => p.1 == k) = false := by
      cases hb : m.any (fun p => p.1 == k)
      · rfl
      · exact absurd hb h
    rw [lookup_append_right k m h']
    simp [List.lookup_cons]

/-- Claim C2, amended: `process_trade_signal` performs no per-symbol
exclusivity check.  Even when `active_trades` already holds a position
for the parsed symbol, a signal whose parse, price lookup, sizing
(positive) and order placement all succeed is processed: the order is
placed, the registry entry for the symbol is silently overwritten with
the new position, and an additional monitoring thread is spawned —
the signal is not rejected. -/
theorem C2_duplicate_signal_amended :
    ∀ (m1 : Option Match1) (m2 : Option Match2) (marketT : Transport MarketBody)
      (accountT : Transport AccountBody) (orderT : Transport OrderBody) (trades : TradeMap)
      (p : ParsedFields) (current amt : ℚ) (resp : ReqResult OrderBody),
      parse_signal m1 m2 = some p →
      (trades.lookup p.symbol).isSome →
      get_current_price marketT = some current →
      calculate_position_size accountT current = .ok amt →
      ¬ amt ≤ 0 →
      send_request orderT = .ok resp →
      respCode OrderBody.code resp = some 0 →
      process_trade_signal m1 m2 marketT accountT orderT trades
        = ⟨some resp,
           dictInsert trades p.symbol ⟨current, api_side_of p.side, orderIdOf resp⟩,
           some ⟨strUpper p.symbol, "market", amt, api_side_of p.side⟩,
           [(p.symbol, current, api_side_of p.side, orderIdOf resp)]⟩ := by
  intro m1 m2 marketT accountT orderT trades p current amt resp hparse _hdup hprice hcalc hamt
    hsend hcode
  simp [process_trade_signal, hparse, hprice, hcalc, hamt, hsend, hcode]

/-- Witness for `C2_duplicate_signal_amended` on a concrete duplicate
signal for an already-tracked symbol. -/
theorem C2_duplicate_signal_amended_witness :
    process_trade_signal none (some ⟨"LONG", "WIFUSDT", 3/5⟩) (marketOkT 2) (accountOkT 400)
        (orderOkT "o2") [("WIFUSDT", ⟨3/5, "buy", some "o1"⟩)]
      = ⟨some (.body ⟨some 0, some "o2"⟩),
         dictInsert [("WIFUSDT", ⟨3/5, "buy", some "o1"⟩)] "WIFUSDT"
           ⟨2, api_side_of "LONG", orderIdOf (.body ⟨some 0, some "o2"⟩)⟩,
         some ⟨strUpper "WIFUSDT", "market", 10, api_side_of "LONG"⟩,
         [("WIFUSDT", 2, api_side_of "LONG", orderIdOf (.body ⟨some 0, some "o2"⟩))]⟩ := by
  have hpy : pyRound ((400 : ℚ) * (5 / 100) / 2) 4 = 10 := by
    have h : ((400 : ℚ) * (5 / 100) / 2) * 10 ^ 4 = ((100000 : ℤ) : ℚ) := by norm_num
    rw [pyRound, h, roundHalfEven_intCast]; norm_num
  have hcalc : calculate_position_size (accountOkT 400) 2 = .ok 10 := by
    simp [calculate_position_size, accountOkT, send_request, handle_rate_limits, headerGet,
      respCode, hpy]
  exact C2_duplicate_signal_amended none (some ⟨"LONG", "WIFUSDT", 3/5⟩) (marketOkT 2)
    (accountOkT 400) (orderOkT "o2") [("WIFUSDT", ⟨3/5, "buy", some "o1"⟩)]
    ⟨"LONG", "WIFUSDT", 3/5, 10⟩ 2 10 (.body ⟨some 0, some "o2"⟩)
    rfl (by decide) rfl hcalc (by norm_num) rfl (by decide)

/-- Claim C2, counterexample.  The claim states a second signal for an
already-open symbol "is rejected outright and does not create or
replace a position or spawn a second monitoring task"; here WIFUSDT is
already tracked, yet the second signal is executed: the call returns
the success response, the registry entry is replaced (entry price 2,
order id "o2"), and a new monitoring thread is spawned. -/
theorem C2_duplicate_signal_cex :
    process_trade_signal none (some ⟨"LONG", "WIFUSDT", 3/5⟩) (marketOkT 2) (accountOkT 400)
        (orderOkT "o2") [("WIFUSDT", ⟨3/5, "buy", some "o1"⟩)]
      = ⟨some (.body ⟨some 0, some "o2"⟩),
         [("WIFUSDT", ⟨2, "buy", some "o2"⟩)],
         some ⟨strUpper "WIFUSDT", "market", 10, "buy"⟩,
         [("WIFUSDT", 2, "buy", some "o2")]⟩
    ∧ (([("WIFUSDT", (⟨3/5, "buy", some "o1"⟩ : Trade))].lookup "WIFUSDT")).isSome := by
  constructor
  · have hpy : pyRound ((400 : ℚ) * (5 / 100) / 2) 4 = 10 := by
      have h : ((400 : ℚ) * (5 / 100) / 2) * 10 ^ 4 = ((100000 : ℤ) : ℚ) := by norm_num
      rw [pyRound, h, roundHalfEven_intCast]; norm_num
    have h10 : ¬ ((10 : ℚ) ≤ 0) := by norm_num
    simp [process_trade_signal, parse_signal, get_current_price, marketOkT, accountOkT, orderOkT,
      send_request, handle_rate_limits, headerGet, respCode, calculate_position_size, hpy, h10,
      api_side_of, dictInsert, orderIdOf]
  · decide

/-- Claim C6, confirmed.  The two signal patterns are tried in a fixed
order and the first match wins: when both `re.search` calls would
match, the parsed fields are exactly those of the first pattern, and
both the parse result and the whole of `process_trade_signal` are
independent of the second pattern's match. -/
theorem C6_first_match_wins :
    (∀ (a : Match1) (b : Match2),
        parse_signal (some a) (some b)
          = some ⟨if containsSub a.orderType "LONG" then "LONG" else "SHORT",
                  a.symbol, a.price, a.leverage⟩
        ∧ parse_signal (some a) (some b) = parse_signal (some a) none)
    ∧ (∀ (a : Match1) (b : Match2) (marketT : Transport MarketBody)
        (accountT : Transport AccountBody) (orderT : Transport OrderBody) (trades : TradeMap),
        process_trade_signal (some a) (some b) marketT accountT orderT trades
          = process_trade_signal (some a) none marketT accountT orderT trades) :=
  ⟨fun _ _ => ⟨rfl, rfl⟩, fun _ _ _ _ _ _ => rfl⟩

/-- Claim C7, confirmed.  For a parsed signal, the exchange order side
is `"buy"` exactly when the captured side is Long and `"sell"` exactly
when it is Short (for format 1 the capture group is
`ENTER-LONG`/`ENTER-SHORT`, for format 2 it is `LONG`/`SHORT`); when
the matching pattern has no leverage group (format 2) the default 10
is substituted; and the side actually sent in the order request is the
mapped side of the parsed signal. -/
theorem C7_side_mapping_default_leverage :
    (∀ (m : Match1) (m2 : Option Match2) (p : ParsedFields),
        m.orderType = "ENTER-LONG" ∨ m.orderType = "ENTER-SHORT" →
        parse_signal (some m) m2 = some p →
        (api_side_of p.side = "buy" ↔ m.orderType = "ENTER-LONG")
        ∧ (api_side_of p.side = "sell" ↔ m.orderType = "ENTER-SHORT")
        ∧ p.leverage = m.leverage)
    ∧ (∀ (m : Match2) (p : ParsedFields),
        m.side = "LONG" ∨ m.side = "SHORT" →
        parse_signal none (some m) = some p →
        (api_side_of p.side = "buy" ↔ m.side = "LONG")
        ∧ (api_side_of p.side = "sell" ↔ m.side = "SHORT")
        ∧ p.leverage = 10)
    ∧ (∀ (m1 : Option Match1) (m2 : Option Match2) (marketT : Transport MarketBody)
        (accountT : Transport AccountBody) (orderT : Transport OrderBody)
        (trades : TradeMap) (p : ParsedFields) (op : OrderParams),
        parse_signal m1 m2 = some p →
        (process_trade_signal m1 m2 marketT accountT orderT trades).orderRequest = some op →
        op.side = api_side_of p.side) := by
  refine ⟨?_, ?_, ?_⟩
  · intro m m2 p hord hp
    rcases hord with h | h
    · simp only [parse_signal, h, (by decide : containsSub "ENTER-LONG" "LONG" = true),
        if_true, Option.some.injEq] at hp
      subst hp
      refine ⟨?_, ?_, rfl⟩ <;> simp [api_side_of, h]
    · simp only [parse_signal, h, (by decide : containsSub "ENTER-SHORT" "LONG" = false),
        Bool.false_eq_true, if_false, Option.some.injEq] at hp
      subst hp
      refine ⟨?_, ?_, rfl⟩ <;> simp [api_side_of, h]
  · intro m p hside hp
    simp only [parse_signal, Option.some.injEq] at hp
    subst hp
    rcases hside with h | h <;> (refine ⟨?_, ?_, rfl⟩ <;> simp [api_side_of, h])
  · intro m1 m2 marketT accountT orderT trades p op hparse hreq
    unfold process_trade_signal at hreq
    rw [hparse] at hreq
    (try dsimp only at hreq)
    rcases hgp : get_current_price marketT with _ | current
    · rw [hgp] at hreq; simp at hreq
    · rw [hgp] at hreq
      (try dsimp only at hreq)
      rcases hcs : calculate_position_size accountT current with e | amt <;> rw [hcs] at hreq <;>
        (try dsimp only at hreq)
      · simp at hreq
      · by_cases hle : amt ≤ 0
        · rw [if_pos hle] at hreq; simp at hreq
        · rw [if_neg hle] at hreq
          rcases hsr : send_request orderT with e | resp <;> rw [hsr] at hreq <;>
            (try dsimp only at hreq)
          · simp at hreq
            subst hreq; rfl
          · by_cases hc : respCode OrderBody.code resp = some 0
            · rw [if_pos hc] at hreq
              simp at hreq
              subst hreq; rfl
            · rw [if_neg hc] at hreq
              simp at hreq
              subst hreq; rfl

/-- Witness for `C7_side_mapping_default_leverage` on a format-2 Short
signal. -/
theorem C7_side_mapping_default_leverage_witness :
    (api_side_of "SHORT" = "buy" ↔ ("SHORT" : String) = "LONG")
    ∧ (api_side_of "SHORT" = "sell" ↔ ("SHORT" : String) = "SHORT")
    ∧ (⟨"SHORT", "WIFUSDT", 3/5, 10⟩ : ParsedFields).leverage = 10 :=
  C7_side_mapping_default_leverage.2.1 ⟨"SHORT", "WIFUSDT", 3/5⟩ ⟨"SHORT", "WIFUSDT", 3/5, 10⟩
    (Or.inr rfl) rfl

/-- Claim C10, confirmed.  Every position handed to a monitoring thread
carries as entry price exactly the market price fetched from the
exchange before the order was placed (the `get_current_price` result),
and the registry entry recorded for the symbol holds that same price —
not the reference price in the signal text (an independent parse
field) and not anything from the order-placement response (whose only
used datum is the order id). -/
theorem C10_entry_price_is_fetched_market_price :
    ∀ (m1 : Option Match1) (m2 : Option Match2) (marketT : Transport MarketBody)
      (accountT : Transport AccountBody) (orderT : Transport OrderBody) (trades : TradeMap)
      (sym : String) (entry : ℚ) (side : String) (oid : Option String),
      (sym, entry, side, oid)
          ∈ (process_trade_signal m1 m2 marketT accountT orderT trades).spawned →
      some entry = get_current_price marketT
      ∧ ((process_trade_signal m1 m2 marketT accountT orderT trades).trades.lookup sym)
          = some ⟨entry, side, oid⟩ := by
  intro m1 m2 marketT accountT orderT trades sym entry side oid hmem
  unfold process_trade_signal at hmem
  rcases hparse : parse_signal m1 m2 with _ | p <;> rw [hparse] at hmem <;>
    (try dsimp only at hmem)
  · simp at hmem
  · rcases hgp : get_current_price marketT with _ | current <;> rw [hgp] at hmem <;>
      (try dsimp only at hmem)
    · simp at hmem
    · rcases hcs : calculate_position_size accountT current with e | amt <;>
        rw [hcs] at hmem <;> (try dsimp only at hmem)
      · simp at hmem
      · by_cases hle : amt ≤ 0
        · rw [if_pos hle] at hmem; simp at hmem
        · rw [if_neg hle] at hmem
          rcases hsr : send_request orderT with e | resp <;> rw [hsr] at hmem <;>
            (try dsimp only at hmem)
          · simp at hmem
          · by_cases hc : respCode OrderBody.code resp = some 0
            · rw [if_pos hc] at hmem
              simp at hmem
              obtain ⟨h1, h2, h3, h4⟩ := hmem
              subst h1; subst h2; subst h3; subst h4
              refine ⟨rfl, ?_⟩
              simp [process_trade_signal, hparse, hgp, hcs, hle, hsr, hc,
                lookup_dictInsert_self]
            · rw [if_neg hc] at hmem
              simp at hmem

/-- Witness for `C10_entry_price_is_fetched_market_price`: with signal
reference price 0.6 and fetched market price 2, the recorded entry
price is 2. -/
theorem C10_entry_price_witness :
    some (2 : ℚ) = get_current_price (marketOkT 2)
    ∧ (((process_trade_signal none (some ⟨"LONG", "WIFUSDT", 3/5⟩) (marketOkT 2) (accountOkT 400)
          (orderOkT "o2") []).trades).lookup "WIFUSDT")
        = some ⟨2, "buy", some "o2"⟩ := by
  have hpy : pyRound ((400 : ℚ) * (5 / 100) / 2) 4 = 10 := by
    have h : ((400 : ℚ) * (5 / 100) / 2) * 10 ^ 4 = ((100000 : ℤ) : ℚ) := by norm_num
    rw [pyRound, h, roundHalfEven_intCast]; norm_num
  have h10 : ¬ ((10 : ℚ) ≤ 0) := by norm_num
  have hmem : ("WIFUSDT", (2 : ℚ), "buy", some "o2")
      ∈ (process_trade_signal none (some ⟨"LONG", "WIFUSDT", 3/5⟩) (marketOkT 2) (accountOkT 400)
          (orderOkT "o2") []).spawned := by
    simp [process_trade_signal, parse_signal, get_current_price, marketOkT, accountOkT, orderOkT,
      send_request, handle_rate_limits, headerGet, respCode, calculate_position_size, hpy, h10,
      api_side_of, orderIdOf]
  exact C10_entry_price_is_fetched_market_price none (some ⟨"LONG", "WIFUSDT", 3/5⟩) (marketOkT 2)
    (accountOkT 400) (orderOkT "o2") [] "WIFUSDT" 2 "buy" (some "o2") hmem

theorem handle_rate_limits_valueError {β : Type} (resp : HttpResponse β) (s : String)
    (h : handle_rate_limits resp = .error (.valueError s)) :
    headerGet resp.headers "X-RateLimit-Remaining" = some s ∧ s ≠ "" ∧ pythonInt? s = none := by
  unfold handle_rate_limits at h
  by_cases h429 : resp.status = 429
  · rw [if_pos h429] at h; simp at h
  · rw [if_neg h429] at h
    rcases hh : headerGet resp.headers "X-RateLimit-Remaining" with _ | t <;>
      simp only [hh] at h
    · simp at h
    · by_cases ht : t = ""
      · rw [if_pos ht] at h; simp at h
      · rw [if_neg ht] at h
        rcases hpi : pythonInt? t with _ | n <;> simp only [hpi] at h
        · simp at h
          subst h
          exact ⟨rfl, ht, hpi⟩
        · by_cases hn : n ≤ 0
          · rw [if_pos hn] at h; simp at h
          · rw [if_neg hn] at h; simp at h

theorem handle_rate_limits_error_shape {β : Type} (resp : HttpResponse β) (e : PyError)
    (h : handle_rate_limits resp = .error e) :
    e = .rateLimitError rateLimitMsg ∨ ∃ s, e = .valueError s := by
  unfold handle_rate_limits at h
  by_cases h429 : resp.status = 429
  · rw [if_pos h429] at h
    simp at h
    exact Or.inl h.symm
  · rw [if_neg h429] at h
    rcases hh : headerGet resp.headers "X-RateLimit-Remaining" with _ | s <;>
      simp only [hh] at h
    · simp at h
    · by_cases hs : s = ""
      · rw [if_pos hs] at h; simp at h
      · rw [if_neg hs] at h
        rcases hpi : pythonInt? s with _ | n <;> simp only [hpi] at h
        · simp at h
          exact Or.inr ⟨s, h.symm⟩
        · by_cases hn : n ≤ 0
          · rw [if_pos hn] at h
            simp at h
            exact Or.inl h.symm
          · rw [if_neg hn] at h; simp at h

theorem handle_rate_limits_ok_of {β : Type} (resp : HttpResponse β)
    (h429 : resp.status ≠ 429)
    (hok : ∀ s, headerGet resp.headers "X-RateLimit-Remaining" = some s → s ≠ "" →
        ∃ n, pythonInt? s = some n ∧ 0 < n) :
    handle_rate_limits resp = .ok () := by
  unfold handle_rate_limits
  rw [if_neg h429]
  rcases hh : headerGet resp.headers "X-RateLimit-Remaining" with _ | s <;> simp only [hh]
  by_cases hs : s = ""
  · rw [if_pos hs]
  · rw [if_neg hs]
    obtain ⟨n, hpi, hn⟩ := hok s hh hs
    simp only [hpi]
    rw [if_neg (not_le.mpr hn)]

/-- Claim C9, counterexample.  The claim states `send_request` never
propagates an exception to its caller; but a response with a nonempty
non-integer `X-RateLimit-Remaining` header makes Python's
`int(remaining)` raise `ValueError`, which neither `except` clause of
`send_request` catches, so the exception propagates (modelled as an
`Except.error` result instead of a returned dictionary). -/
theorem C9_rate_limit_cex :
    send_request (β := Unit) (.success ⟨200, [("X-RateLimit-Remaining", "oops")], ()⟩)
      = .error (.valueError "oops") := by
  have hpi : pythonInt? "oops" = none := by decide
  simp [send_request, handle_rate_limits, headerGet, hpi]

/-- Claim C9, amended: apart from the `ValueError` escaping on a
nonempty non-integer `X-RateLimit-Remaining` header, `send_request`
returns a structured result: a transport-level `RequestException`
yields the sentinel dictionary with code -1; an HTTP 429 status, or a
nonempty remaining-quota header parsing to an integer `≤ 0`, yields
the typed rate-limit dictionary with code 4213 (and the function
contains no retry — it consumes exactly one transport outcome); any
response whose remaining-header (if present and nonempty) parses as an
integer produces a returned result, and an HTTP error status `≥ 400`
(other than 429, with a well-formed positive remaining header if any)
yields the sentinel code -1. -/
theorem C9_send_request_amended :
    (∀ (β : Type) (msg : String),
        send_request (β := β) (.requestException msg)
          = .ok (.errDict (-1) ("Request failed: " ++ msg)))
    ∧ (∀ (β : Type) (resp : HttpResponse β), resp.status = 429 →
        send_request (.success resp) = .ok (.errDict 4213 rateLimitMsg))
    ∧ (∀ (β : Type) (resp : HttpResponse β) (s : String) (n : Int),
        headerGet resp.headers "X-RateLimit-Remaining" = some s → s ≠ "" →
        pythonInt? s = some n → n ≤ 0 →
        send_request (.success resp) = .ok (.errDict 4213 rateLimitMsg))
    ∧ (∀ (β : Type) (resp : HttpResponse β),
        (∀ s, headerGet resp.headers "X-RateLimit-Remaining" = some s → s ≠ "" →
            (pythonInt? s).isSome) →
        ∃ r, send_request (.success resp) = .ok r)
    ∧ (∀ (β : Type) (resp : HttpResponse β),
        400 ≤ resp.status → resp.status ≠ 429 →
        (∀ s, headerGet resp.headers "X-RateLimit-Remaining" = some s → s ≠ "" →
            ∃ n, pythonInt? s = some n ∧ 0 < n) →
        send_request (.success resp)
          = .ok (.errDict (-1) ("Request failed: HTTP " ++ toString resp.status))) := by
  refine ⟨fun _ _ => rfl, ?_, ?_, ?_, ?_⟩
  · intro β resp h429
    have hh : handle_rate_limits resp = .error (.rateLimitError rateLimitMsg) := by
      unfold handle_rate_limits
      rw [if_pos h429]
    simp [send_request, hh]
  · intro β resp s n hhdr hs hpi hn
    have hh : handle_rate_limits resp = .error (.rateLimitError rateLimitMsg) := by
      unfold handle_rate_limits
      by_cases h429 : resp.status = 429
      · rw [if_pos h429]
      · rw [if_neg h429]
        simp only [hhdr, if_neg hs, hpi, if_pos hn]
    simp [send_request, hh]
  · intro β resp hwf
    rcases hrl : handle_rate_limits resp with e | u
    · rcases e with m | s | _ | _
      · exact ⟨.errDict 4213 m, by simp [send_request, hrl]⟩
      · obtain ⟨hh, hs, hpi⟩ := handle_rate_limits_valueError resp s hrl
        have hws := hwf s hh hs
        rw [hpi] at hws
        simp at hws
      · rcases handle_rate_limits_error_shape resp _ hrl with h | ⟨t, ht⟩
        · simp at h
        · simp at ht
      · rcases handle_rate_limits_error_shape resp _ hrl with h | ⟨t, ht⟩
        · simp at h
        · simp at ht
    · by_cases h400 : 400 ≤ resp.status
      · exact ⟨.errDict (-1) ("Request failed: HTTP " ++ toString resp.status),
          by simp [send_request, hrl, h400]⟩
      · exact ⟨.body resp.body, by simp [send_request, hrl, h400]⟩
  · intro β resp h400 h429 hok
    have hh : handle_rate_limits resp = .ok () := handle_rate_limits_ok_of resp h429 hok
    simp [send_request, hh, h400]

/-- Witness for `C9_send_request_amended`: a remaining-quota header of
"0" yields the code-4213 rate-limit dictionary. -/
theorem C9_send_request_amended_witness :
    send_request (β := Unit) (.success ⟨200, [("X-RateLimit-Remaining", "0")], ()⟩)
      = .ok (.errDict 4213 rateLimitMsg) :=
  C9_send_request_amended.2.2.1 Unit ⟨200, [("X-RateLimit-Remaining", "0")], ()⟩ "0" 0
    rfl (by decide) (by decide) (by decide)

theorem charListLt_asymm : ∀ (as bs : List Char),
    charListLt as bs = true → charListLt bs as = false
  | [], [], h => by simp [charListLt] at h
  | [], _ :: _, _ => by simp [charListLt]
  | _ :: _, [], h => by simp [charListLt] at h
  | a :: as, b :: bs, h => by
    by_cases hab : a < b
    · simp [charListLt, asymm hab, hab]
    · by_cases hba : b < a
      · simp [charListLt, hab, hba] at h
      · simp only [charListLt, if_neg hab, if_neg hba] at h
        simp only [charListLt, if_neg hab, if_neg hba]
        exact charListLt_asymm as bs h

theorem charListLt_irrefl (as : List Char) : charListLt as as = false := by
  cases h : charListLt as as
  · rfl
  · have h2 := charListLt_asymm as as h
    rw [h] at h2
    exact h2

theorem charListLt_connex : ∀ (as bs : List Char),
    charListLt as bs = false → charListLt bs as = false → as = bs
  | [], [], _, _ => rfl
  | [], _ :: _, h1, _ => by simp [charListLt] at h1
  | _ :: _, [], _, h2 => by simp [charListLt] at h2
  | a :: as, b :: bs, h1, h2 => by
    by_cases hab : a < b
    · simp [charListLt, hab] at h1
    · by_cases hba : b < a
      · simp [charListLt, hba] at h2
      · have hab' : a = b := le_antisymm (le_of_not_lt hba) (le_of_not_lt hab)
        subst hab'
        simp only [charListLt, if_neg hab, if_neg hba] at h1 h2
        rw [charListLt_connex as bs h1 h2]

theorem strData_inj {s t : String} (h : s.data = t.data) : s = t := by
  cases s; cases t; exact congrArg String.mk h

theorem pairLeB_total (x y : String × String) : pairLeB x y = true ∨ pairLeB y x = true := by
  by_cases h1 : charListLt x.1.data y.1.data = true
  · exact Or.inl (by simp [pairLeB, h1])
  · by_cases h2 : charListLt y.1.data x.1.data = true
    · exact Or.inr (by simp [pairLeB, h2])
    · have hk : x.1 = y.1 := strData_inj (charListLt_connex _ _
        (Bool.not_eq_true _ ▸ h1 : charListLt x.1.data y.1.data = false)
        (Bool.not_eq_true _ ▸ h2))
      by_cases h3 : charListLt y.2.data x.2.data = true
      · refine Or.inr ?_
        simp [pairLeB, hk, strLeB, charListLt_asymm _ _ h3]
      · refine Or.inl ?_
        simp only [Bool.not_eq_true] at h3
        simp [pairLeB, hk, strLeB, h3]

theorem pairLeB_key_le {x y : String × String} (h : pairLeB x y = true) :
    strLeB x.1 y.1 = true := by
  rw [pairLeB] at h
  rcases Bool.or_eq_true_iff.mp h with h1 | h2
  · simp [strLeB, charListLt_asymm _ _ h1]
  · have hk : x.1 = y.1 := by
      have := (Bool.and_eq_true_iff.mp h2).1
      exact eq_of_beq this
    simp [strLeB, hk, charListLt_irrefl]

theorem chain'_insertSorted (x : String × String) :
    ∀ (l : List (String × String)), l.Chain' (fun a b => pairLeB a b = true) →
      (insertSorted x l).Chain' (fun a b => pairLeB a b = true)
  | [], _ => by simp [insertSorted]
  | y :: ys, h => by
    rw [insertSorted]
    by_cases hxy : pairLeB x y = true
    · rw [if_pos hxy]
      exact List.Chain'.cons hxy h
    · rw [if_neg hxy]
      have hyx : pairLeB y x = true := (pairLeB_total x y).resolve_left hxy
      have hys : ys.Chain' (fun a b => pairLeB a b = true) := h.tail
      have hins := chain'_insertSorted x ys hys
      cases ys with
      | nil => exact List.chain'_pair.mpr hyx
      | cons z zs =>
        rw [insertSorted] at hins ⊢
        by_cases hxz : pairLeB x z = true
        · rw [if_pos hxz] at hins ⊢
          exact List.Chain'.cons hyx hins
        · rw [if_neg hxz] at hins ⊢
          exact List.Chain'.cons ((List.chain'_cons.mp h).1) hins

theorem chain'_sortPairs : ∀ (l : List (String × String)),
    (sortPairs l).Chain' (fun a b => pairLeB a b = true)
  | [] => by simp [sortPairs]
  | x :: xs => by
    rw [sortPairs]
    exact chain'_insertSorted x (sortPairs xs) (chain'_sortPairs xs)

theorem insertSorted_perm (x : String × String) :
    ∀ (l : List (String × String)), (insertSorted x l).Perm (x :: l)
  | [] => List.Perm.refl _
  | y :: ys => by
    rw [insertSorted]
    by_cases hxy : pairLeB x y = true
    · rw [if_pos hxy]
    · rw [if_neg hxy]
      exact ((insertSorted_perm x ys).cons y).trans (List.Perm.swap x y ys)

theorem sortPairs_perm : ∀ (l : List (String × String)), (sortPairs l).Perm l
  | [] => List.Perm.refl _
  | x :: xs => by
    rw [sortPairs]
    exact (insertSorted_perm x (sortPairs xs)).trans ((sortPairs_perm xs).cons x)

theorem chain'_sortPairs_keys (l : List (String × String)) :
    (sortPairs l).Chain' (fun a b => strLeB a.1 b.1 = true) :=
  (chain'_sortPairs l).imp (fun _ _ h => pairLeB_key_le h)

/-- Claim C8, confirmed.  For every method, path, parameter list,
timestamp and secret: the string-to-sign is uppercase(method)
concatenated with the path — for GET with parameters carrying a query
string of `k=v` pairs sorted by key and joined by `&`, for POST with
parameters the `json.dumps` body appended raw — followed by the
timestamp with no separators; and the signature is HMAC-SHA256 of that
string under the secret, rendered as lowercase hex (the source's
trailing `.lower()` included).  The sorted pairs are a permutation of
the parameters with keys in nondecreasing code-point order. -/
theorem C8_signature_canonicalization (method endpoint : String)
    (params : List (String × String)) (ts secret : String) :
    create_signature secret method endpoint params ts
      = (strLower (hexDigest (hmacSha256 (latin1Bytes secret) (latin1Bytes (
          strUpper method
          ++ (if strUpper method = "GET" ∧ params ≠ [] then
                endpoint ++ "?" ++ queryStringOf params
              else if strUpper method = "POST" ∧ params ≠ [] then endpoint ++ jsonDumps params
              else endpoint)
          ++ ts)))), ts)
    ∧ (sortPairs params).Chain' (fun x y => strLeB x.1 y.1 = true)
    ∧ (sortPairs params).Perm params := by
  refine ⟨?_, chain'_sortPairs_keys params, sortPairs_perm params⟩
  rw [create_signature, queryStringOf]
  by_cases hg : strUpper method = "GET" ∧ params ≠ []
  · have hnp : ¬ (strUpper method = "POST" ∧ params ≠ []) := by
      rintro ⟨hp, -⟩
      rw [hg.1] at hp
      exact absurd hp (by decide)
    rw [if_pos hg, if_pos hg, if_neg hnp, String.append_assoc]
  · rw [if_neg hg, if_neg hg]
    by_cases hp : strUpper method = "POST" ∧ params ≠ []
    · rw [if_pos hp, if_pos hp, String.append_assoc (strUpper method) endpoint (jsonDumps params)]
    · rw [if_neg hp, if_neg hp]
